import Mathlib

/-!
Verification development for the elda-backend speech-intent service.

The embedding models, from the TypeScript sources:
  * `extractJsonFromString` and `processTextWithGemini` (src/server.ts), including
    the JSON-extraction regex scan and the try/catch structure of the adapter;
  * the `POST /api/process-speech` handler (`processSpeech` below), including the
    input validation, classifier-error branch, intent dispatch, mongoose saves
    (with the schema validation from models/Contact and models/Task: required
    fields, trim setters, defaults) and the central error middleware;
  * a small JSON value type with a `JSON.parse` model, and the subset of
    JavaScript regular-expression matching that the code exercises.

Modelling notes: machine-level details that no claim depends on are abstracted —
console logging has no observable effect and is omitted; mongoose validation
error message text is abbreviated; JSON number values are kept as lexemes (no
claim depends on numeric semantics); the regex subset treats characters other
than the dot and the alternation bar as literals, which is faithful for every
pattern the code itself builds and for metacharacter-free entity strings plus
the dot; case folding is ASCII `toLower`.
-/

namespace EldaBackend

/-- JavaScript whitespace characters: the set matched by the regex whitespace
class and stripped by `String.prototype.trim`. -/
def isJsWs (c : Char) : Bool :=
  c = ' ' || c = '\t' || c = '\n' || c = '\r' ||
  c = Char.ofNat 0x0B || c = Char.ofNat 0x0C || c = Char.ofNat 0xA0 ||
  c = Char.ofNat 0x1680 ||
  (0x2000 ≤ c.toNat && c.toNat ≤ 0x200A) ||
  c = Char.ofNat 0x2028 || c = Char.ofNat 0x2029 || c = Char.ofNat 0x202F ||
  c = Char.ofNat 0x205F || c = Char.ofNat 0x3000 || c = Char.ofNat 0xFEFF

/-- Drop a trailing run of characters satisfying `p` (used for the regex
trailing-whitespace stripping and for `trim`). -/
def dropLastWhile (p : Char → Bool) (cs : List Char) : List Char :=
  (cs.reverse.dropWhile p).reverse

/-- JavaScript `String.prototype.trim` on a character list. -/
def jsTrimList (cs : List Char) : List Char :=
  dropLastWhile isJsWs (cs.dropWhile isJsWs)

/-- JavaScript `String.prototype.trim`. -/
def jsTrim (s : String) : String := String.mk (jsTrimList s.data)

/-! ### JSON values and a model of `JSON.parse` -/

/-- JSON values as produced by `JSON.parse`. Numbers are kept as their source
lexeme; object members are kept in order (with possible duplicate keys, where
property access takes the last occurrence, as in JavaScript). -/
inductive Json where
  | null
  | bool (b : Bool)
  | num (lexeme : String)
  | str (s : String)
  | arr (elements : List Json)
  | obj (members : List (String × Json))
deriving Repr

/-- JSON-grammar whitespace (the only whitespace `JSON.parse` accepts). -/
def isJsonWs (c : Char) : Bool :=
  c = ' ' || c = '\t' || c = '\n' || c = '\r'

/-- Skip JSON whitespace. -/
def skipJsonWs (cs : List Char) : List Char := cs.dropWhile isJsonWs

/-- Value of a hexadecimal digit. -/
def hexVal (c : Char) : Option Nat :=
  if '0' ≤ c ∧ c ≤ '9' then some (c.toNat - '0'.toNat)
  else if 'a' ≤ c ∧ c ≤ 'f' then some (c.toNat - 'a'.toNat + 10)
  else if 'A' ≤ c ∧ c ≤ 'F' then some (c.toNat - 'A'.toNat + 10)
  else none

/-- Decimal digit test (JSON grammar digits). -/
def isDigitChar (c : Char) : Bool := '0' ≤ c && c ≤ '9'

/-- Parse the body of a JSON string literal (the opening quote already
consumed), returning the decoded characters and the rest of the input.
Recursion is fuelled; one unit of fuel is spent per consumed escape or
character, so `input length + 1` fuel always suffices. -/
def parseJStringBody : Nat → List Char → Option (List Char × List Char)
  | 0, _ => none
  | _ + 1, [] => none
  | fuel + 1, c :: rest =>
    if c = '"' then some ([], rest)
    else if c = '\\' then
      match rest with
      | [] => none
      | e :: rest2 =>
        let cont (decoded : Char) (rem : List Char) : Option (List Char × List Char) :=
          match parseJStringBody fuel rem with
          | some (cs, r) => some (decoded :: cs, r)
          | none => none
        if e = '"' then cont '"' rest2
        else if e = '\\' then cont '\\' rest2
        else if e = '/' then cont '/' rest2
        else if e = 'b' then cont (Char.ofNat 8) rest2
        else if e = 'f' then cont (Char.ofNat 12) rest2
        else if e = 'n' then cont '\n' rest2
        else if e = 'r' then cont '\r' rest2
        else if e = 't' then cont '\t' rest2
        else if e = 'u' then
          match rest2 with
          | h1 :: h2 :: h3 :: h4 :: rest3 =>
            match hexVal h1, hexVal h2, hexVal h3, hexVal h4 with
            | some a, some b, some c2, some d =>
              cont (Char.ofNat (((a * 16 + b) * 16 + c2) * 16 + d)) rest3
            | _, _, _, _ => none
          | _ => none
        else none
    else if c.toNat < 0x20 then none
    else
      match parseJStringBody fuel rest with
      | some (cs, r) => some (c :: cs, r)
      | none => none

/-- Parse the signed integer part of a JSON number (no leading zeros). -/
def parseJNumberInt (cs : List Char) : Option (List Char × List Char) :=
  let (sign, cs1) : List Char × List Char :=
    match cs with
    | '-' :: rest => (['-'], rest)
    | _ => ([], cs)
  match cs1 with
  | [] => none
  | c :: rest =>
    if c = '0' then some (sign ++ ['0'], rest)
    else if isDigitChar c then
      let digits := rest.takeWhile isDigitChar
      some (sign ++ c :: digits, rest.drop digits.length)
    else none

/-- Parse the optional fraction part of a JSON number: a dot must be followed
by at least one digit, otherwise the whole number (and hence the whole
`JSON.parse`) fails, as in JavaScript. -/
def parseJNumberFrac (cs : List Char) : Option (List Char × List Char) :=
  match cs with
  | '.' :: rest =>
    let digits := rest.takeWhile isDigitChar
    if digits = [] then none else some ('.' :: digits, rest.drop digits.length)
  | _ => some ([], cs)

/-- Parse the optional exponent part of a JSON number. -/
def parseJNumberExp (cs : List Char) : Option (List Char × List Char) :=
  match cs with
  | e :: rest =>
    if e = 'e' ∨ e = 'E' then
      let (esign, rest1) : List Char × List Char :=
        match rest with
        | s :: r => if s = '+' ∨ s = '-' then ([s], r) else ([], rest)
        | [] => ([], rest)
      let digits := rest1.takeWhile isDigitChar
      if digits = [] then none
      else some (e :: esign ++ digits, rest1.drop digits.length)
    else some ([], cs)
  | [] => some ([], cs)

/-- Parse a JSON number starting at the head of the input, returning its lexeme
and the rest. Follows the JSON grammar: optional minus, integer part with no
leading zeros, optional fraction, optional exponent. -/
def parseJNumber (cs : List Char) : Option (List Char × List Char) :=
  match parseJNumberInt cs with
  | none => none
  | some (intPart, cs2) =>
    match parseJNumberFrac cs2 with
    | none => none
    | some (fracPart, cs3) =>
      match parseJNumberExp cs3 with
      | none => none
      | some (expPart, cs4) => some (intPart ++ fracPart ++ expPart, cs4)

mutual

/-- Parse a JSON value at the head of the input (no leading whitespace). -/
def parseJValue : Nat → List Char → Option (Json × List Char)
  | 0, _ => none
  | fuel + 1, cs =>
    match cs with
    | '{' :: rest => parseJMembersStart fuel (skipJsonWs rest)
    | '[' :: rest => parseJElemsStart fuel (skipJsonWs rest)
    | '"' :: rest =>
      match parseJStringBody (rest.length + 1) rest with
      | some (chars, r) => some (.str (String.mk chars), r)
      | none => none
    | 't' :: 'r' :: 'u' :: 'e' :: rest => some (.bool true, rest)
    | 'f' :: 'a' :: 'l' :: 's' :: 'e' :: rest => some (.bool false, rest)
    | 'n' :: 'u' :: 'l' :: 'l' :: rest => some (.null, rest)
    | c :: _ =>
      if c = '-' ∨ isDigitChar c then
        match parseJNumber cs with
        | some (lex, r) => some (.num (String.mk lex), r)
        | none => none
      else none
    | [] => none

/-- Parse the inside of a JSON object after the opening brace and whitespace:
either an immediate closing brace or a member list. -/
def parseJMembersStart : Nat → List Char → Option (Json × List Char)
  | 0, _ => none
  | fuel + 1, cs =>
    match cs with
    | '}' :: rest => some (.obj [], rest)
    | _ =>
      match parseJMembers fuel cs with
      | some (ms, r) => some (.obj ms, r)
      | none => none

/-- Parse one or more `"key": value` members followed by the closing brace. -/
def parseJMembers : Nat → List Char → Option (List (String × Json) × List Char)
  | 0, _ => none
  | fuel + 1, cs =>
    match cs with
    | '"' :: rest =>
      match parseJStringBody (rest.length + 1) rest with
      | some (keyChars, r1) =>
        match skipJsonWs r1 with
        | ':' :: r2 =>
          match parseJValue fuel (skipJsonWs r2) with
          | some (v, r3) =>
            match skipJsonWs r3 with
            | ',' :: r4 =>
              match parseJMembers fuel (skipJsonWs r4) with
              | some (ms, r5) => some ((String.mk keyChars, v) :: ms, r5)
              | none => none
            | '}' :: r4 => some ([(String.mk keyChars, v)], r4)
            | _ => none
          | none => none
        | _ => none
      | none => none
    | _ => none

/-- Parse the inside of a JSON array after the opening bracket and whitespace. -/
def parseJElemsStart : Nat → List Char → Option (Json × List Char)
  | 0, _ => none
  | fuel + 1, cs =>
    match cs with
    | ']' :: rest => some (.arr [], rest)
    | _ =>
      match parseJElems fuel cs with
      | some (es, r) => some (.arr es, r)
      | none => none

/-- Parse one or more array elements followed by the closing bracket. -/
def parseJElems : Nat → List Char → Option (List Json × List Char)
  | 0, _ => none
  | fuel + 1, cs =>
    match parseJValue fuel cs with
    | some (v, r1) =>
      match skipJsonWs r1 with
      | ',' :: r2 =>
        match parseJElems fuel (skipJsonWs r2) with
        | some (es, r3) => some (v :: es, r3)
        | none => none
      | ']' :: r2 => some ([v], r2)
      | _ => none
    | none => none

end

/-- Model of `JSON.parse`: parse a complete JSON text (with surrounding
whitespace allowed), returning `none` where `JSON.parse` would throw. -/
def jsonParse (s : String) : Option Json :=
  let cs := skipJsonWs s.data
  match parseJValue (cs.length + 1) cs with
  | some (v, rest) => if skipJsonWs rest = [] then some v else none
  | none => none

/-! ### JavaScript value helpers -/

/-- True when the mantissa of a JSON number lexeme is all zeros, i.e. the
numeric value is zero (the only falsy number `JSON.parse` can produce). -/
def jsonNumIsZero (lexeme : String) : Bool :=
  ((lexeme.data.takeWhile fun c => c ≠ 'e' ∧ c ≠ 'E').filter isDigitChar).all (· = '0')

/-- JavaScript truthiness of a parsed JSON value. -/
def Json.truthy : Json → Bool
  | .null => false
  | .bool b => b
  | .num lexeme => !(jsonNumIsZero lexeme)
  | .str s => s != ""
  | .arr _ => true
  | .obj _ => true

/-- JavaScript property access on a parsed JSON value: defined only on objects,
with the last duplicate key winning, `none` standing for `undefined`. -/
def Json.getField : Json → String → Option Json
  | .obj members, key => members.foldl (fun acc kv => if kv.1 = key then some kv.2 else acc) none
  | _, _ => none

/-- Truthiness of a possibly-`undefined` JavaScript value. -/
def undefTruthy : Option Json → Bool
  | some v => v.truthy
  | none => false

/-- JavaScript `typeof v === "object"` for values `JSON.parse` can produce. -/
def isObjectType : Json → Bool
  | .null => true
  | .arr _ => true
  | .obj _ => true
  | _ => false

/-! ### The JSON-extraction regex of `extractJsonFromString`

The source matches `text` against a single regular expression with two
alternatives: a fenced code block (three backticks and `json`, lazily matched
content, three backticks) and a greedy brace span. A JavaScript `match` without
the global flag scans positions left to right and, at each position, tries the
fence alternative first and then the brace alternative; the lazy fence content
stops at the first later fence, with surrounding whitespace-run stripping from
the adjacent greedy whitespace matchers, while the greedy brace span runs from
an opening brace at the current position to the last closing brace anywhere in
the rest of the text. -/

/-- The literal opening of the fence alternative. -/
def fenceOpen : List Char := "```json".data

/-- Three backticks, closing a fence. -/
def fenceTicks : List Char := "```".data

/-- Content strictly before the first occurrence of three backticks, or `none`
when no closing fence exists. -/
def beforeFirstFence : List Char → Option (List Char)
  | [] => none
  | c :: rest =>
    if List.isPrefixOf fenceTicks (c :: rest) then some []
    else
      match beforeFirstFence rest with
      | some before => some (c :: before)
      | none => none

/-- Capture of the fence alternative when it matches at the head of `cs`:
after the literal opening, greedy whitespace is skipped, the lazy content runs
to the first closing fence, and the trailing whitespace run is stripped. -/
def fenceCaptureAt (cs : List Char) : Option (List Char) :=
  if List.isPrefixOf fenceOpen cs then
    match beforeFirstFence ((cs.drop 7).dropWhile isJsWs) with
    | some body => some (dropLastWhile isJsWs body)
    | none => none
  else none

/-- Capture of the greedy brace alternative when it matches at the head of
`cs`: from this opening brace through the last closing brace of the text. -/
def braceCaptureAt (cs : List Char) : Option (List Char) :=
  match cs with
  | '{' :: rest =>
    if dropLastWhile (fun c => c ≠ '}') rest = [] then none
    else some ('{' :: dropLastWhile (fun c => c ≠ '}') rest)
  | _ => none

/-- The full regex scan: positions left to right, fence alternative before
brace alternative at each position; result is the capture the source feeds to
`JSON.parse` (group 1 or group 2). -/
def jsonRegexScan : List Char → Option (List Char)
  | [] => none
  | c :: rest =>
    match fenceCaptureAt (c :: rest) with
    | some cap => some cap
    | none =>
      match braceCaptureAt (c :: rest) with
      | some cap => some cap
      | none => jsonRegexScan rest

/-- Validation applied to the parsed object in `extractJsonFromString`:
`parsed && typeof parsed === "object" && parsed.intent && parsed.entities &&
typeof parsed.targetCollection !== "undefined"`. -/
def validGeminiShape (j : Json) : Bool :=
  j.truthy && isObjectType j && undefTruthy (j.getField "intent") &&
    undefTruthy (j.getField "entities") && (j.getField "targetCollection").isSome

/-- Model of `extractJsonFromString` (src/server.ts): run the regex scan, parse
the captured span, and return the parsed value only when it passes the shape
validation; every other path (no match, parse throw, failed validation) returns
`null`. An empty fence capture makes the source parse the string `undefined`,
which throws, so returning `none` for a failed parse of the empty capture is
the same observable result. -/
def extractJsonFromString (text : String) : Option Json :=
  match jsonRegexScan text.data with
  | none => none
  | some cap =>
    match jsonParse (String.mk cap) with
    | none => none
    | some parsed => if validGeminiShape parsed then some parsed else none

/-! ### The classifier adapter `processTextWithGemini` -/

/-- Outcome of the external model call as seen by the adapter: a prompt-feedback
block with its reason, a throw from the transport (`some message` for an
`Error`, `none` for a non-`Error` throw), or a raw response text. -/
inductive ModelOutcome where
  | blocked (reason : String)
  | failure (thrown : Option String)
  | text (s : String)

/-- The `unknown`-intent failure value the adapter returns, with the given
`error` string (field order as in the source object literals). -/
def unknownShape (errMsg : String) : Json :=
  .obj [("intent", .str "unknown"), ("entities", .obj []),
        ("targetCollection", .null), ("error", .str errMsg)]

/-- The body of the adapter's `try` block: a safety block returns the failure
value directly; a transport throw propagates; an extraction failure throws an
`Error` with the fixed message. -/
def processTextBody : ModelOutcome → Except (Option String) Json
  | .blocked reason => .ok (unknownShape ("Content blocked due to " ++ reason))
  | .failure thrown => .error thrown
  | .text s =>
    match extractJsonFromString s with
    | some j => .ok j
    | none => .error (some "Failed to extract or parse valid JSON from Gemini response.")

/-- The message computed by the adapter's `catch` block. -/
def geminiCatchMessage : Option String → String
  | some m => "Gemini Processing Error: " ++ m
  | none => "An unknown error occurred during Gemini processing."

/-- Model of `processTextWithGemini` (src/server.ts): the `try` body with its
`catch` folded in, so the adapter is total — every exception inside the body is
mapped to the `unknown`-intent failure value. -/
def processTextWithGemini (o : ModelOutcome) : Json :=
  match processTextBody o with
  | .ok j => j
  | .error e => unknownShape (geminiCatchMessage e)

/-! ### The regular-expression subset exercised by the query filters

The handler builds `new RegExp(entity, "i")` patterns for the `get_tasks` and
`get_contacts` queries, plus an alternation joined with the bar for the task
description. The subset below models exactly the constructs such patterns can
exercise meaningfully: top-level alternation on the bar, the dot (any character
except a line terminator), and all other characters as case-insensitive
literals. Case folding is ASCII `toLower`. -/

/-- Split a pattern on the alternation bar. -/
def splitOnBar : List Char → List (List Char)
  | [] => [[]]
  | c :: rest =>
    if c = '|' then [] :: splitOnBar rest
    else
      match splitOnBar rest with
      | [] => [[c]]
      | g :: gs => (c :: g) :: gs

/-- JavaScript line terminators, which the dot does not match. -/
def lineTerm (c : Char) : Bool :=
  c = '\n' || c = '\r' || c = Char.ofNat 0x2028 || c = Char.ofNat 0x2029

/-- One pattern character against one text character, case-insensitively. -/
def charMatches (p t : Char) : Bool :=
  if p = '.' then !(lineTerm t) else p.toLower = t.toLower

/-- Does the alternative match starting exactly at the head of the text? -/
def seqMatchesFront : List Char → List Char → Bool
  | [], _ => true
  | _ :: _, [] => false
  | p :: ps, t :: ts => charMatches p t && seqMatchesFront ps ts

/-- Does the alternative match anywhere in the text (unanchored search)? -/
def seqSearch (ps : List Char) : List Char → Bool
  | [] => seqMatchesFront ps []
  | c :: ts => seqMatchesFront ps (c :: ts) || seqSearch ps ts

/-- Model of `new RegExp(pat, "i")` tested against `text`, for the subset
described above. -/
def regexTestCI (pat text : String) : Bool :=
  (splitOnBar pat.data).any fun alt => seqSearch alt text.data

/-- JavaScript `String.prototype.split(" ")`: split on every single space,
keeping empty pieces. -/
def jsSplitSpace (s : String) : List String := s.split (· = ' ')

/-! ### Classifier result and entities as the pipeline consumes them

The handler destructures `{intent, entities, targetCollection, error}` from the
adapter result and reads the five entity fields the prompt names. `none`
stands for a `null` or absent (`undefined`) field, which the handler only ever
distinguishes from a present string by truthiness. `intent` is kept as an
arbitrary string so that out-of-range intents are representable. -/

structure GeminiEntities where
  name : Option String := none
  phoneNumber : Option String := none
  relationship : Option String := none
  description : Option String := none
  time : Option String := none
deriving DecidableEq, Repr

structure GeminiResponse where
  intent : String
  entities : GeminiEntities
  targetCollection : Option String
  error : Option String
deriving DecidableEq, Repr

/-- JavaScript truthiness of an optional string (absent, `null` and the empty
string are falsy). -/
def truthyOpt : Option String → Bool
  | none => false
  | some s => if s = "" then false else true

/-! ### The mongoose document models (models/Contact.ts, models/Task.ts) -/

/-- A persisted Contact document: `name`, `phoneNumber` and `prompt` required
and trimmed, `relationship` optional and trimmed, `createdAt` defaulted. -/
structure Contact where
  name : String
  phoneNumber : String
  prompt : String
  relationship : Option String := none
  createdAt : Nat := 0
deriving DecidableEq, Repr

/-- A persisted Task document: `prompt` and `description` required and trimmed,
`time` optional and trimmed, `isCompleted` defaulted to `false`, `createdAt`
defaulted. -/
structure Task where
  prompt : String
  description : String
  time : Option String := none
  isCompleted : Bool := false
  createdAt : Nat := 0
deriving DecidableEq, Repr

/-- The two collections of the document store. -/
structure DbState where
  contacts : List Contact
  tasks : List Task
deriving DecidableEq, Repr

/-- The mongoose `required: true` validator on a String path, applied after the
`trim` setter: fails on an absent or `null` value and on a value that trims to
the empty string. -/
def requiredStringOk : Option String → Bool
  | none => false
  | some s => if jsTrim s = "" then false else true

/-- Model of `new ContactModel({...}).save()`: validate the required paths and
either append the finalized document (trim setters and defaults applied) or
reject with a validation error. The error message abbreviates mongoose's
validation message; no claim depends on its text. -/
def saveContact (now : Nat) (st : DbState)
    (name phoneNumber relationship prompt : Option String) : Except String DbState :=
  if requiredStringOk name = true ∧ requiredStringOk phoneNumber = true ∧
      requiredStringOk prompt = true then
    .ok { st with contacts := st.contacts ++
      [{ name := jsTrim (name.getD ""), phoneNumber := jsTrim (phoneNumber.getD ""),
         prompt := jsTrim (prompt.getD ""), relationship := relationship.map jsTrim,
         createdAt := now }] }
  else .error "Contact validation failed"

/-- Model of `new TaskModel({...}).save()`, as for `saveContact`. -/
def saveTask (now : Nat) (st : DbState)
    (description time prompt : Option String) : Except String DbState :=
  if requiredStringOk description = true ∧ requiredStringOk prompt = true then
    .ok { st with tasks := st.tasks ++
      [{ prompt := jsTrim (prompt.getD ""), description := jsTrim (description.getD ""),
         time := time.map jsTrim, isCompleted := false, createdAt := now }] }
  else .error "Task validation failed"

/-! ### The `get_tasks` and `get_contacts` queries -/

/-- The filter document built in the `get_tasks` branch: `isCompleted: false`,
plus a case-insensitive regex on `time` when the time entity is truthy (a
document without a `time` field cannot match a regex condition), plus a regex
of the space-split description tokens joined by the alternation bar when the
description entity is truthy. -/
def taskQueryMatches (e : GeminiEntities) (t : Task) : Bool :=
  !t.isCompleted &&
    (if truthyOpt e.time = true then
       match t.time with
       | some v => regexTestCI (e.time.getD "") v
       | none => false
     else true) &&
    (if truthyOpt e.description = true then
       regexTestCI (String.intercalate "|" (jsSplitSpace (e.description.getD ""))) t.description
     else true)

/-- Insert a task into a list sorted by descending `createdAt`. -/
def insertTaskDesc (t : Task) : List Task → List Task
  | [] => [t]
  | u :: us => if u.createdAt ≤ t.createdAt then t :: u :: us else u :: insertTaskDesc t us

/-- Sort tasks newest first (`.sort({createdAt: -1})`). -/
def sortTasksDesc : List Task → List Task
  | [] => []
  | t :: ts => insertTaskDesc t (sortTasksDesc ts)

/-- `TaskModel.find(query).sort({createdAt: -1})` in the `get_tasks` branch. -/
def getTasksResults (st : DbState) (e : GeminiEntities) : List Task :=
  sortTasksDesc (st.tasks.filter (taskQueryMatches e))

/-- The filter document built in the `get_contacts` branch. -/
def contactQueryMatches (e : GeminiEntities) (c : Contact) : Bool :=
  if truthyOpt e.name = true then regexTestCI (e.name.getD "") c.name else true

/-- `ContactModel.find(query)` in the `get_contacts` branch (no sort). -/
def getContactsResults (st : DbState) (e : GeminiEntities) : List Contact :=
  st.contacts.filter (contactQueryMatches e)

/-! ### Response messages (the string literals of the handler) -/

/-- An apostrophe, written by code point to keep the embedding free of literal
quote characters inside string literals. -/
def aposS : String := String.mk [Char.ofNat 39]

def invalidTextMsg : String := "Valid text input is required in the request body"

def troubleMsg : String := "Sorry, I had trouble understanding that right now."

def didNotUnderstandMsg : String :=
  "I" ++ aposS ++ "m sorry, I didn" ++ aposS ++ "t quite understand your request."

def defaultResponseMsg : String := "Something went wrong while processing your request."

def contactMissingMsg : String :=
  "I understood you want to add a contact, but I couldn" ++ aposS ++
    "t get the required name or phone number."

def taskMissingMsg : String :=
  "I understood you want to add a task, but I couldn" ++ aposS ++ "t get the description."

def okContactMsg (name : String) : String :=
  "OK. I" ++ aposS ++ "ve added " ++ name ++ " to your contacts."

def okTaskMsg (description : String) : String :=
  "OK. I" ++ aposS ++ "ve added the task: " ++ description ++ "."

/-- One entry of the `get_tasks` listing: the description, with the time
appended when the document's `time` is truthy. -/
def taskLine (t : Task) : String :=
  t.description ++
    (match t.time with
     | some v => if v = "" then "" else " at " ++ v
     | none => "")

/-- One entry of the `get_contacts` listing. -/
def contactLine (c : Contact) : String :=
  c.name ++ ", phone " ++ c.phoneNumber ++
    (match c.relationship with
     | some r => if r = "" then "" else " (" ++ r ++ ")"
     | none => "")

def noTasksMsg : String := "You have no pending tasks matching that description."

/-- The `get_tasks` response message. -/
def taskListMessage (ts : List Task) : String :=
  if 0 < ts.length then
    "Here are your current tasks: " ++ String.intercalate ". " (ts.map taskLine)
  else noTasksMsg

def contactNotFoundMsg (name : String) : String :=
  "I couldn" ++ aposS ++ "t find a contact named " ++ name ++ "."

def noContactsMsg : String := "You don" ++ aposS ++ "t have any contacts saved yet."

/-- The `get_contacts` response message. -/
def contactListMessage (e : GeminiEntities) (cs : List Contact) : String :=
  if 0 < cs.length then
    "Here are the contacts I found: " ++ String.intercalate ". " (cs.map contactLine)
  else if truthyOpt e.name = true then contactNotFoundMsg (e.name.getD "")
  else noContactsMsg

def prodErrorMsg : String := "An internal server error occurred."

/-- The central error middleware message outside production mode. -/
def devErrorMsg (m : String) : String := "Internal Server Error: " ++ m

/-! ### The `POST /api/process-speech` handler -/

/-- An HTTP response of the handler: status, `message`, the optional `details`
of the classifier-failure replies, and the `intent`/`entities` echo of the 200
replies. The response never carries `targetCollection`. -/
structure SpeechResponse where
  status : Nat
  message : String
  details : Option String := none
  intentEcho : Option String := none
  entitiesEcho : Option GeminiEntities := none
deriving DecidableEq, Repr

/-- The input validation `!text || typeof text !== "string" ||
text.trim().length === 0` on the request body's `text` member (`none` stands
for an absent member; any JSON value can appear). -/
def validTextField : Option Json → Bool
  | some (.str s) => if jsTrim s = "" then false else true
  | _ => false

/-- Model of the `POST /api/process-speech` handler (src/server.ts), given the
classifier result for the request text. Branch for branch: text validation
(400); the classifier-failure branch (500 when `error` is truthy, 400 when the
intent is `unknown`), with `details` set to `geminiError || "Unknown intent"`;
then the intent switch. The add branches create the document without any
`prompt` value and surface a save rejection through the central error
middleware (status 500, message mode-dependent); the get branches query and
never write; an unrecognized intent falls through the switch to the default
200 message. The intent/target-collection mismatch check only logs a console
warning, so `targetCollection` is never read by this model. -/
def processSpeech (production : Bool) (now : Nat) (st : DbState)
    (bodyText : Option Json) (cls : GeminiResponse) : SpeechResponse × DbState :=
  if validTextField bodyText = false then
    ({ status := 400, message := invalidTextMsg }, st)
  else if truthyOpt cls.error = true ∨ cls.intent = "unknown" then
    ({ status := if truthyOpt cls.error = true then 500 else 400,
       message := if truthyOpt cls.error = true then troubleMsg else didNotUnderstandMsg,
       details := some (if truthyOpt cls.error = true then cls.error.getD "" else "Unknown intent") },
     st)
  else if cls.intent = "add_contact" then
    if truthyOpt cls.entities.name = true ∧ truthyOpt cls.entities.phoneNumber = true then
      match saveContact now st cls.entities.name cls.entities.phoneNumber
          cls.entities.relationship none with
      | .ok st2 =>
        ({ status := 200, message := okContactMsg (cls.entities.name.getD ""),
           intentEcho := some cls.intent, entitiesEcho := some cls.entities }, st2)
      | .error e =>
        ({ status := 500, message := if production then prodErrorMsg else devErrorMsg e }, st)
    else ({ status := 400, message := contactMissingMsg }, st)
  else if cls.intent = "add_task" then
    if truthyOpt cls.entities.description = true then
      match saveTask now st cls.entities.description
          (if truthyOpt cls.entities.time = true then cls.entities.time else none) none with
      | .ok st2 =>
        ({ status := 200, message := okTaskMsg (cls.entities.description.getD ""),
           intentEcho := some cls.intent, entitiesEcho := some cls.entities }, st2)
      | .error e =>
        ({ status := 500, message := if production then prodErrorMsg else devErrorMsg e }, st)
    else ({ status := 400, message := taskMissingMsg }, st)
  else if cls.intent = "get_tasks" then
    ({ status := 200, message := taskListMessage (getTasksResults st cls.entities),
       intentEcho := some cls.intent, entitiesEcho := some cls.entities }, st)
  else if cls.intent = "get_contacts" then
    ({ status := 200, message := contactListMessage cls.entities (getContactsResults st cls.entities),
       intentEcho := some cls.intent, entitiesEcho := some cls.entities }, st)
  else
    ({ status := 200, message := defaultResponseMsg,
       intentEcho := some cls.intent, entitiesEcho := some cls.entities }, st)

/-- Total number of persisted documents, for the write-effect claims. -/
def docCount (st : DbState) : Nat := st.contacts.length + st.tasks.length

/-- The task list is sorted newest first by `createdAt`. -/
def sortedByCreatedAtDesc (ts : List Task) : Prop :=
  List.Chain' (fun a b => b.createdAt ≤ a.createdAt) ts

/-! ### Spec-side definitions

These two definitions follow the specification's words rather than the source,
for comparison against the source-derived definitions above. -/

/-- Does the first list occur verbatim at the head of the second? -/
def subFrontEq : List Char → List Char → Bool
  | [], _ => true
  | _ :: _, [] => false
  | a :: as, b :: bs => a = b && subFrontEq as bs

/-- Does the first list occur verbatim anywhere in the second? -/
def subSearchEq (n : List Char) : List Char → Bool
  | [] => subFrontEq n []
  | c :: cs => subFrontEq n (c :: cs) || subSearchEq n cs

/-- Modelled from the spec: a case-insensitive substring test, the reading of
"optionally filtered by case-insensitive `time` substring". -/
def specSubstringCI (needle hay : String) : Bool :=
  subSearchEq (needle.data.map Char.toLower) (hay.data.map Char.toLower)

/-- Modelled from the spec: extraction "first tries a non-greedy
fenced-code-block match" over the whole text, before any brace fallback — the
first fenced block's capture wherever it sits. -/
def specFenceFirstCapture : List Char → Option (List Char)
  | [] => none
  | c :: rest =>
    match fenceCaptureAt (c :: rest) with
    | some cap => some cap
    | none => specFenceFirstCapture rest

/-! ## Helper lemmas -/

/-- A Contact save with no `prompt` value always fails mongoose validation. -/
theorem saveContact_no_prompt (now : Nat) (st : DbState) (a b r : Option String) :
    saveContact now st a b r none = .error "Contact validation failed" := by
  simp [saveContact, requiredStringOk]

/-- A Task save with no `prompt` value always fails mongoose validation. -/
theorem saveTask_no_prompt (now : Nat) (st : DbState) (d t : Option String) :
    saveTask now st d t none = .error "Task validation failed" := by
  simp [saveTask, requiredStringOk]

/-- The handler never changes the database state: the only write paths are the
two save calls, and both omit the schema-required `prompt` field, so both are
rejected by validation. -/
theorem processSpeech_state_eq (p : Bool) (now : Nat) (st : DbState)
    (bodyText : Option Json) (cls : GeminiResponse) :
    (processSpeech p now st bodyText cls).2 = st := by
  simp only [processSpeech, saveContact_no_prompt, saveTask_no_prompt]
  repeat' split
  all_goals rfl

/-- Membership in an insertion into the descending-`createdAt` order. -/
theorem mem_insertTaskDesc {u t : Task} {ts : List Task} :
    u ∈ insertTaskDesc t ts ↔ u = t ∨ u ∈ ts := by
  induction ts with
  | nil => simp [insertTaskDesc]
  | cons v vs ih =>
    simp only [insertTaskDesc]
    split
    · simp [List.mem_cons]
    · simp [List.mem_cons, ih, or_left_comm]

/-- Sorting preserves membership. -/
theorem mem_sortTasksDesc {u : Task} {ts : List Task} :
    u ∈ sortTasksDesc ts ↔ u ∈ ts := by
  induction ts with
  | nil => simp [sortTasksDesc]
  | cons t ts ih => simp [sortTasksDesc, mem_insertTaskDesc, ih, List.mem_cons]

/-- Inserting into a descending-sorted list keeps it sorted. -/
theorem sortedByCreatedAtDesc_insert {t : Task} {ts : List Task}
    (h : sortedByCreatedAtDesc ts) : sortedByCreatedAtDesc (insertTaskDesc t ts) := by
  induction ts with
  | nil => simp [insertTaskDesc, sortedByCreatedAtDesc]
  | cons v vs ih =>
    simp only [insertTaskDesc]
    split
    · rename_i hle
      exact List.chain'_cons.mpr ⟨hle, h⟩
    · rename_i hgt
      have htail : sortedByCreatedAtDesc (insertTaskDesc t vs) :=
        ih (List.Chain'.tail h)
      apply List.chain'_cons'.mpr
      refine ⟨?_, htail⟩
      intro b hb
      cases vs with
      | nil =>
        simp [insertTaskDesc] at hb
        subst hb
        omega
      | cons w ws =>
        simp only [insertTaskDesc] at hb
        split at hb
        · simp at hb
          subst hb
          omega
        · simp at hb
          subst hb
          exact (List.chain'_cons.mp h).1

/-- The `get_tasks` result list is sorted newest first. -/
theorem sortTasksDesc_sorted (ts : List Task) :
    sortedByCreatedAtDesc (sortTasksDesc ts) := by
  induction ts with
  | nil => simp [sortTasksDesc, sortedByCreatedAtDesc]
  | cons t ts ih => exact sortedByCreatedAtDesc_insert ih

/-- A successful `beforeFirstFence` returns a leading piece of its input. -/
theorem beforeFirstFence_starts {l b : List Char}
    (h : beforeFirstFence l = some b) : b <+: l := by
  induction l generalizing b with
  | nil => simp [beforeFirstFence] at h
  | cons c rest ih =>
    simp only [beforeFirstFence] at h
    split at h
    · cases h
      exact List.nil_prefix
    · revert h
      cases hm : beforeFirstFence rest with
      | none => intro h; cases h
      | some before =>
        intro h
        cases h
        obtain ⟨tl, htl⟩ := ih hm
        exact ⟨tl, by simp [← htl]⟩

/-- Dropping a trailing run returns a leading piece of the input. -/
theorem dropLastWhile_starts (p : Char → Bool) (l : List Char) :
    dropLastWhile p l <+: l := by
  refine ⟨(l.reverse.takeWhile p).reverse, ?_⟩
  simp [dropLastWhile, ← List.reverse_append, List.takeWhile_append_dropWhile]

/-- The fence alternative's capture is a contiguous piece of the scanned text. -/
theorem fenceCaptureAt_within {cs cap : List Char}
    (h : fenceCaptureAt cs = some cap) : cap <:+: cs := by
  simp only [fenceCaptureAt] at h
  split at h
  · revert h
    cases hb : beforeFirstFence ((cs.drop 7).dropWhile isJsWs) with
    | none => intro h; cases h
    | some body =>
      intro h
      cases h
      have h1 : dropLastWhile isJsWs body <+: body := dropLastWhile_starts _ _
      have h2 : body <+: (cs.drop 7).dropWhile isJsWs := beforeFirstFence_starts hb
      have h3 : (cs.drop 7).dropWhile isJsWs <:+ cs.drop 7 :=
        ⟨(cs.drop 7).takeWhile isJsWs, List.takeWhile_append_dropWhile _ _⟩
      have h4 : cs.drop 7 <:+ cs := ⟨cs.take 7, List.take_append_drop 7 cs⟩
      exact List.IsInfix.trans ( List.IsPrefix.isInfix (h1.trans h2))
        ( List.IsSuffix.isInfix (h3.trans h4))
  · cases h

/-- The brace alternative's capture is a contiguous piece of the scanned text. -/
theorem braceCaptureAt_within {cs cap : List Char}
    (h : braceCaptureAt cs = some cap) : cap <:+: cs := by
  unfold braceCaptureAt at h
  split at h
  · rename_i rest
    split at h
    · cases h
    · injection h with h2
      obtain ⟨tl, htl⟩ := dropLastWhile_starts (fun c => c ≠ '}') rest
      refine ⟨[], tl, ?_⟩
      rw [← h2]
      simpa using htl
  · cases h

/-- The regex scan's capture is a contiguous piece of the scanned text. -/
theorem jsonRegexScan_within {cs cap : List Char}
    (h : jsonRegexScan cs = some cap) : cap <:+: cs := by
  induction cs with
  | nil => cases h
  | cons c rest ih =>
    simp only [jsonRegexScan] at h
    revert h
    cases hf : fenceCaptureAt (c :: rest) with
    | some cap2 =>
      intro h
      cases h
      exact fenceCaptureAt_within hf
    | none =>
      cases hbr : braceCaptureAt (c :: rest) with
      | some cap2 =>
        intro h
        cases h
        exact braceCaptureAt_within hbr
      | none =>
        intro h
        obtain ⟨s, t, hst⟩ := ih h
        exact ⟨c :: s, t, by simp [hst]⟩

/-! ## Claim theorems -/

/-- C1: the specified behavior — a valid `add_contact` (resp. `add_task`)
classification persists exactly one document and replies 200 — does not hold of
the code: both schemas require a `prompt` field the handler never supplies, so
every save is rejected by mongoose validation and the request ends in the
central error middleware with a 500 and no write. This theorem evaluates the
handler at the failing inputs. -/
theorem c1_add_intents_reply_500_and_write_nothing :
    processSpeech false 7 ⟨[], []⟩
        (some (.str "Add John Doe to my contacts, his number is 555-111-2222"))
        ⟨"add_contact", { name := some "John Doe", phoneNumber := some "555-111-2222" },
          some "contacts", none⟩ =
      ({ status := 500, message := "Internal Server Error: Contact validation failed" },
        ⟨[], []⟩) ∧
    processSpeech false 7 ⟨[], []⟩
        (some (.str "Remind me to call the doctor tomorrow"))
        ⟨"add_task", { description := some "call the doctor", time := some "tomorrow" },
          some "tasks", none⟩ =
      ({ status := 500, message := "Internal Server Error: Task validation failed" },
        ⟨[], []⟩) :=
  ⟨rfl, rfl⟩

/-- C3: the classifier adapter is total over model outcomes — a content-safety
block returns the `unknown`-intent value with error `Content blocked due to
<reason>`, and every transport-level throw (an `Error` or otherwise) is caught
and mapped to the same `unknown`-intent shape with a descriptive error string;
no exception escapes, the failure is always returned as a plain value. -/
theorem c3_adapter_totality :
    (∀ reason, processTextWithGemini (.blocked reason) =
        unknownShape ("Content blocked due to " ++ reason)) ∧
    (∀ msg, processTextWithGemini (.failure (some msg)) =
        unknownShape ("Gemini Processing Error: " ++ msg)) ∧
    processTextWithGemini (.failure none) =
      unknownShape "An unknown error occurred during Gemini processing." :=
  ⟨fun _ => rfl, fun _ => rfl, rfl⟩

/-- C5 (counterexample): a classification result whose `error` field is set to
the empty string is not answered with a 500 — emptiness makes the error falsy,
so the code falls through (here to the unknown-intent 400) — refuting the claim
that a set `error` field always yields a 500 response. -/
theorem c5_empty_error_not_500 :
    (processSpeech false 0 ⟨[], []⟩ (some (.str "hi"))
        ⟨"unknown", {}, none, some ""⟩).1.status = 400 ∧
    (processSpeech false 0 ⟨[], []⟩ (some (.str "hi"))
        ⟨"unknown", {}, none, some ""⟩).1.status ≠ 500 :=
  ⟨rfl, by decide⟩

/-- C5 (amended): for a classification result delivered to the pipeline (valid
request text), a non-empty `error` yields a 500 with the apologetic message and
the error value as detail, and an `unknown` intent with a falsy (absent or
empty) `error` yields a 400 with the distinct misunderstanding message; the
state is unchanged either way (both replies return before any database code). -/
theorem c5_classifier_failure_branches (p : Bool) (now : Nat) (st : DbState)
    (bodyText : Option Json) (cls : GeminiResponse)
    (hv : validTextField bodyText = true) :
    (∀ e, cls.error = some e → e ≠ "" →
      processSpeech p now st bodyText cls =
        ({ status := 500, message := troubleMsg, details := some e }, st)) ∧
    (truthyOpt cls.error = false → cls.intent = "unknown" →
      processSpeech p now st bodyText cls =
        ({ status := 400, message := didNotUnderstandMsg, details := some "Unknown intent" }, st)) := by
  constructor
  · intro e he hne
    have ht : truthyOpt (some e) = true := by simp [truthyOpt, hne]
    simp [processSpeech, hv, he, ht]
  · intro hf hu
    simp [processSpeech, hv, hf, hu]

/-- C5 (witness): the amended theorem applied at a concrete blocked result. -/
theorem c5_classifier_failure_branches_witness :
    processSpeech false 0 ⟨[], []⟩ (some (.str "hi")) ⟨"add_task", {}, none, some "boom"⟩ =
      ({ status := 500, message := troubleMsg, details := some "boom" }, ⟨[], []⟩) :=
  (c5_classifier_failure_branches false 0 ⟨[], []⟩ (some (.str "hi"))
    ⟨"add_task", {}, none, some "boom"⟩ rfl).1 "boom" rfl (by decide)

/-- C7 (counterexample): when extraction fails, the error string the adapter
actually returns is `Gemini Processing Error: Failed to extract or parse valid
JSON from Gemini response.` — not the claimed `Failed to extract or parse valid
JSON from model response.`. -/
theorem c7_error_string_differs :
    (processTextWithGemini (.text "hello")).getField "error" =
      some (.str "Gemini Processing Error: Failed to extract or parse valid JSON from Gemini response.") ∧
    ("Gemini Processing Error: Failed to extract or parse valid JSON from Gemini response." : String) ≠
      "Failed to extract or parse valid JSON from model response." :=
  ⟨rfl, by decide⟩

/-- C7 (amended): whenever JSON extraction from the model text fails, the
adapter returns the `unknown`-intent value `{intent: unknown, entities: {},
targetCollection: null}` with `error` equal to `Gemini Processing Error: Failed
to extract or parse valid JSON from Gemini response.` (the thrown extraction
message as wrapped by the adapter's catch block). -/
theorem c7_extraction_failure_value (s : String)
    (h : extractJsonFromString s = none) :
    processTextWithGemini (.text s) =
      unknownShape "Gemini Processing Error: Failed to extract or parse valid JSON from Gemini response." := by
  simp [processTextWithGemini, processTextBody, h, geminiCatchMessage]

/-- C7 (witness): the amended theorem applied at a JSON-free model text. -/
theorem c7_extraction_failure_value_witness :
    processTextWithGemini (.text "hello") =
      unknownShape "Gemini Processing Error: Failed to extract or parse valid JSON from Gemini response." :=
  c7_extraction_failure_value "hello" rfl

/-- C9: `targetCollection` never influences the handler — for any two
classification results identical except in `targetCollection`, the response
(status, message, details, echoes) and the resulting state are identical; the
mismatch check only logs, and dispatch reads the intent alone. -/
theorem c9_targetCollection_has_no_effect
    (p : Bool) (now : Nat) (st : DbState) (bodyText : Option Json)
    (intent : String) (entities : GeminiEntities) (tc tc2 : Option String)
    (err : Option String) :
    processSpeech p now st bodyText ⟨intent, entities, tc, err⟩ =
      processSpeech p now st bodyText ⟨intent, entities, tc2, err⟩ :=
  rfl

/-- C10: a classifier result with no error and a truthy intent other than the
five known intents falls through the dispatch switch, so the handler replies
200 with the untouched default message and writes nothing. -/
theorem c10_unrecognized_intent_default_200
    (p : Bool) (now : Nat) (st : DbState) (bodyText : Option Json)
    (cls : GeminiResponse)
    (hv : validTextField bodyText = true)
    (he : cls.error = none)
    (hne : cls.intent ≠ "")
    (hmem : cls.intent ∉ (["add_contact", "add_task", "get_contacts", "get_tasks", "unknown"] : List String)) :
    processSpeech p now st bodyText cls =
      ({ status := 200, message := defaultResponseMsg,
         intentEcho := some cls.intent, entitiesEcho := some cls.entities }, st) := by
  simp only [List.mem_cons, List.mem_singleton, not_or] at hmem
  obtain ⟨h1, h2, h3, h4, h5⟩ := hmem
  simp [processSpeech, hv, he, truthyOpt, h1, h2, h3, h4, h5]

/-- C10 (witness): the theorem applied at a concrete out-of-range intent. -/
theorem c10_unrecognized_intent_default_200_witness :
    processSpeech false 0 ⟨[], []⟩ (some (.str "hi")) ⟨"delete_task", {}, none, none⟩ =
      ({ status := 200, message := defaultResponseMsg,
         intentEcho := some "delete_task", entitiesEcho := some {} }, ⟨[], []⟩) :=
  c10_unrecognized_intent_default_200 false 0 ⟨[], []⟩ (some (.str "hi"))
    ⟨"delete_task", {}, none, none⟩ rfl rfl (by decide) (by decide)

/-- C2: every input-validation failure — missing, non-string, empty or
whitespace-only text, a classified `add_contact` missing the name or the phone
number, a classified `add_task` missing the description — yields a 400 and
leaves both collections untouched. The intent cases are stated for results the
failure branch has not already claimed (falsy `error`), as in the spec's
dispatch table. -/
theorem c2_validation_failures_400_no_write
    (p : Bool) (now : Nat) (st : DbState) (bodyText : Option Json) (cls : GeminiResponse)
    (h : validTextField bodyText = false ∨
      (truthyOpt cls.error = false ∧
        ((cls.intent = "add_contact" ∧
            (cls.entities.name = none ∨ cls.entities.phoneNumber = none)) ∨
         (cls.intent = "add_task" ∧ cls.entities.description = none)))) :
    (processSpeech p now st bodyText cls).1.status = 400 ∧
      (processSpeech p now st bodyText cls).2 = st := by
  refine ⟨?_, processSpeech_state_eq p now st bodyText cls⟩
  rcases h with hbad | ⟨herr, hcase⟩
  · simp [processSpeech, hbad]
  · by_cases hv : validTextField bodyText = false
    · simp [processSpeech, hv]
    · replace hv : validTextField bodyText = true := by
        cases hvb : validTextField bodyText <;> simp_all
      rcases hcase with ⟨hi, hmiss⟩ | ⟨hi, hdesc⟩
      · rcases hmiss with hm | hm <;>
          simp [processSpeech, hv, herr, hi, hm, show truthyOpt none = false from rfl]
      · simp [processSpeech, hv, herr, hi, hdesc, show truthyOpt none = false from rfl]

/-- C2 (witness): the theorem applied to a classified `add_contact` result with
no phone number. -/
theorem c2_validation_failures_400_no_write_witness :
    (processSpeech false 0 ⟨[], []⟩ (some (.str "hi"))
        ⟨"add_contact", { name := some "John" }, none, none⟩).1.status = 400 ∧
      (processSpeech false 0 ⟨[], []⟩ (some (.str "hi"))
        ⟨"add_contact", { name := some "John" }, none, none⟩).2 = ⟨[], []⟩ :=
  c2_validation_failures_400_no_write false 0 ⟨[], []⟩ (some (.str "hi"))
    ⟨"add_contact", { name := some "John" }, none, none⟩
    (Or.inr ⟨rfl, Or.inl ⟨rfl, Or.inr rfl⟩⟩)

/-- An add intent can never produce a 200: valid entities run into the missing
`prompt` validation failure (500 via the middleware), invalid entities reply
400, and the pre-dispatch branches reply 400 or 500. -/
theorem add_intent_not_200
    (p : Bool) (now : Nat) (st : DbState) (bodyText : Option Json) (cls : GeminiResponse)
    (h : cls.intent = "add_contact" ∨ cls.intent = "add_task") :
    (processSpeech p now st bodyText cls).1.status ≠ 200 := by
  rcases h with hi | hi <;>
    · simp only [processSpeech, saveContact_no_prompt, saveTask_no_prompt, hi]
      repeat' split
      all_goals simp_all

/-- C8: write effects of a request — the state never gains more than one
document; `get_tasks` and `get_contacts` requests and every non-200 reply leave
the state unchanged; and a 200 reply to an add intent accounts for exactly one
new document (vacuously so: the missing-`prompt` schema violation means no add
request ever reaches a 200, see C1). -/
theorem c8_write_effects
    (p : Bool) (now : Nat) (st : DbState) (bodyText : Option Json) (cls : GeminiResponse) :
    docCount (processSpeech p now st bodyText cls).2 ≤ docCount st + 1 ∧
    ((cls.intent = "get_tasks" ∨ cls.intent = "get_contacts" ∨
        (processSpeech p now st bodyText cls).1.status ≠ 200) →
      (processSpeech p now st bodyText cls).2 = st) ∧
    (((processSpeech p now st bodyText cls).1.status = 200 ∧
        (cls.intent = "add_contact" ∨ cls.intent = "add_task")) →
      docCount (processSpeech p now st bodyText cls).2 = docCount st + 1) := by
  have hst := processSpeech_state_eq p now st bodyText cls
  refine ⟨by rw [hst]; omega, fun _ => hst, ?_⟩
  rintro ⟨h200, hadd⟩
  exact absurd h200 (add_intent_not_200 p now st bodyText cls hadd)

/-- C8 (witness): the theorem applied at a concrete `get_tasks` request,
projecting the unchanged-state conjunct. -/
theorem c8_write_effects_witness :
    (processSpeech false 0 ⟨[], []⟩ (some (.str "hi"))
        ⟨"get_tasks", {}, none, none⟩).2 = ⟨[], []⟩ :=
  (c8_write_effects false 0 ⟨[], []⟩ (some (.str "hi"))
    ⟨"get_tasks", {}, none, none⟩).2.1 (Or.inl rfl)

/-- C4 (counterexample): extraction does not try the fenced-code-block match
over the whole text first — the scan is positional, so a brace span occurring
before a fenced block wins. On this input the spec-side fence-first extraction
finds a fenced JSON object that parses and passes the shape validation, while
the code's greedy brace alternative matches at the very first character,
produces an unparseable span, and extraction returns `null`. -/
theorem c4_positional_scan_beats_fence :
    extractJsonFromString
        "\x7b\"a\":1\x7d ```json\n\x7b\"intent\":\"add_task\",\"entities\":\x7b\x7d,\"targetCollection\":null\x7d\n```" =
      none ∧
    specFenceFirstCapture
        "\x7b\"a\":1\x7d ```json\n\x7b\"intent\":\"add_task\",\"entities\":\x7b\x7d,\"targetCollection\":null\x7d\n```".data =
      some "\x7b\"intent\":\"add_task\",\"entities\":\x7b\x7d,\"targetCollection\":null\x7d".data ∧
    jsonParse "\x7b\"intent\":\"add_task\",\"entities\":\x7b\x7d,\"targetCollection\":null\x7d" =
      some (.obj [("intent", .str "add_task"), ("entities", .obj []), ("targetCollection", .null)]) ∧
    validGeminiShape
        (.obj [("intent", .str "add_task"), ("entities", .obj []), ("targetCollection", .null)]) = true :=
  ⟨rfl, rfl, rfl, rfl⟩

/-- C4 (amended): the extraction runs one left-to-right regex scan in which, at
each position, a fenced-block match is preferred to a greedy brace span running
to the last closing brace of the text; whenever extraction succeeds, the result
was obtained by `JSON.parse` from a contiguous span of the model output and is
an object with truthy `intent`, truthy `entities` and a present (possibly
`null`) `targetCollection`; on every other path extraction returns `null` with
no repair. -/
theorem c4_extraction_sound (s : String) (j : Json)
    (h : extractJsonFromString s = some j) :
    undefTruthy (j.getField "intent") = true ∧
    undefTruthy (j.getField "entities") = true ∧
    (j.getField "targetCollection").isSome = true ∧
    ∃ cap : List Char, cap <:+: s.data ∧ jsonParse (String.mk cap) = some j := by
  unfold extractJsonFromString at h
  rcases hscan : jsonRegexScan s.data with _ | cap <;> simp only [hscan] at h
  · simp at h
  · rcases hparse : jsonParse (String.mk cap) with _ | parsed <;> simp only [hparse] at h
    · simp at h
    · by_cases hvalid : validGeminiShape parsed = true
      · rw [if_pos hvalid] at h
        injection h with hj
        subst hj
        simp only [validGeminiShape, Bool.and_eq_true, and_assoc] at hvalid
        obtain ⟨h1, h2, h3, h4, h5⟩ := hvalid
        exact ⟨h3, h4, h5, cap, jsonRegexScan_within hscan, hparse⟩
      · rw [if_neg hvalid] at h
        cases h

/-- C4 (witness): the amended theorem applied at a plain valid JSON object. -/
theorem c4_extraction_sound_witness :
    undefTruthy ((Json.obj [("intent", .str "get_tasks"), ("entities", .obj []),
        ("targetCollection", .null)]).getField "intent") = true ∧
    undefTruthy ((Json.obj [("intent", .str "get_tasks"), ("entities", .obj []),
        ("targetCollection", .null)]).getField "entities") = true ∧
    ((Json.obj [("intent", .str "get_tasks"), ("entities", .obj []),
        ("targetCollection", .null)]).getField "targetCollection").isSome = true :=
  ⟨(c4_extraction_sound
      "\x7b\"intent\":\"get_tasks\",\"entities\":\x7b\x7d,\"targetCollection\":null\x7d"
      (Json.obj [("intent", .str "get_tasks"), ("entities", .obj []),
        ("targetCollection", .null)]) rfl).1,
   (c4_extraction_sound
      "\x7b\"intent\":\"get_tasks\",\"entities\":\x7b\x7d,\"targetCollection\":null\x7d"
      (Json.obj [("intent", .str "get_tasks"), ("entities", .obj []),
        ("targetCollection", .null)]) rfl).2.1,
   (c4_extraction_sound
      "\x7b\"intent\":\"get_tasks\",\"entities\":\x7b\x7d,\"targetCollection\":null\x7d"
      (Json.obj [("intent", .str "get_tasks"), ("entities", .obj []),
        ("targetCollection", .null)]) rfl).2.2.1⟩

/-- The `get_tasks` filter, spelled out: incomplete tasks only, the
time-pattern condition when the time entity is truthy (a task with no `time`
field cannot match), and the token-alternation pattern on the description when
the description entity is truthy. -/
theorem taskQueryMatches_iff (e : GeminiEntities) (t : Task) :
    taskQueryMatches e t = true ↔
      (t.isCompleted = false ∧
        (truthyOpt e.time = true →
          ∃ v, t.time = some v ∧ regexTestCI (e.time.getD "") v = true) ∧
        (truthyOpt e.description = true →
          regexTestCI (String.intercalate "|" (jsSplitSpace (e.description.getD "")))
            t.description = true)) := by
  unfold taskQueryMatches
  cases hc : t.isCompleted <;> simp [hc]
  by_cases ht : truthyOpt e.time = true <;>
    by_cases hd : truthyOpt e.description = true <;>
      cases htt : t.time <;> simp [ht, hd, htt]

/-- C6 (counterexample): the `get_tasks` time filter is not a substring match —
the time entity is used as a regular-expression pattern, so the pattern `a.c`
matches a task whose time is `axc` (the dot matches any character) even though
`a.c` is not a case-insensitive substring of `axc`; the task is listed in the
200 reply. -/
theorem c6_time_filter_is_regex_not_substring :
    (processSpeech false 0 ⟨[], [⟨"p", "see dentist", some "axc", false, 5⟩]⟩
        (some (.str "hi")) ⟨"get_tasks", { time := some "a.c" }, some "tasks", none⟩).1.message =
      "Here are your current tasks: see dentist at axc" ∧
    specSubstringCI "a.c" "axc" = false :=
  ⟨rfl, rfl⟩

/-- C6 (amended): a `get_tasks` request (valid text, falsy `error`) writes
nothing and replies 200; the reply message lists the query results through
`taskListMessage` (each task's description, with ` at <time>` appended when the
task has a non-empty time, joined by `. `, or the no-pending-tasks message when
empty); the results are exactly the incomplete stored tasks that pass the
case-insensitive regular-expression filters — the time entity used directly as
a pattern, the description entity split on single spaces and joined by the
alternation bar (so metacharacters and empty tokens affect matching) — sorted
newest first by `createdAt`. -/
theorem c6_get_tasks_behavior
    (p : Bool) (now : Nat) (st : DbState) (bodyText : Option Json) (cls : GeminiResponse)
    (hv : validTextField bodyText = true)
    (herr : truthyOpt cls.error = false)
    (hi : cls.intent = "get_tasks") :
    (processSpeech p now st bodyText cls).2 = st ∧
    (processSpeech p now st bodyText cls).1.status = 200 ∧
    (processSpeech p now st bodyText cls).1.message =
      taskListMessage (getTasksResults st cls.entities) ∧
    (∀ t : Task, t ∈ getTasksResults st cls.entities ↔
      (t ∈ st.tasks ∧ t.isCompleted = false ∧
        (truthyOpt cls.entities.time = true →
          ∃ v, t.time = some v ∧ regexTestCI (cls.entities.time.getD "") v = true) ∧
        (truthyOpt cls.entities.description = true →
          regexTestCI (String.intercalate "|" (jsSplitSpace (cls.entities.description.getD "")))
            t.description = true))) ∧
    sortedByCreatedAtDesc (getTasksResults st cls.entities) := by
  refine ⟨processSpeech_state_eq p now st bodyText cls, ?_, ?_, ?_, sortTasksDesc_sorted _⟩
  · simp [processSpeech, hv, herr, hi]
  · simp [processSpeech, hv, herr, hi]
  · intro t
    rw [show getTasksResults st cls.entities =
          sortTasksDesc (st.tasks.filter (taskQueryMatches cls.entities)) from rfl,
        mem_sortTasksDesc, List.mem_filter, taskQueryMatches_iff]

/-- C6 (witness): the theorem applied at a concrete filtered query. -/
theorem c6_get_tasks_behavior_witness :
    (processSpeech false 0 ⟨[], [⟨"p", "buy milk", some "morning", false, 9⟩]⟩
        (some (.str "hi")) ⟨"get_tasks", { time := some "MORN" }, none, none⟩).1.status = 200 ∧
    (processSpeech false 0 ⟨[], [⟨"p", "buy milk", some "morning", false, 9⟩]⟩
        (some (.str "hi")) ⟨"get_tasks", { time := some "MORN" }, none, none⟩).2 =
      ⟨[], [⟨"p", "buy milk", some "morning", false, 9⟩]⟩ :=
  ⟨(c6_get_tasks_behavior false 0 ⟨[], [⟨"p", "buy milk", some "morning", false, 9⟩]⟩
      (some (.str "hi")) ⟨"get_tasks", { time := some "MORN" }, none, none⟩ rfl rfl rfl).2.1,
   (c6_get_tasks_behavior false 0 ⟨[], [⟨"p", "buy milk", some "morning", false, 9⟩]⟩
      (some (.str "hi")) ⟨"get_tasks", { time := some "MORN" }, none, none⟩ rfl rfl rfl).1⟩

end EldaBackend
